import Mathlib

/-! Shallow embedding of the MockSpokePoolClient event-synthesis harness: the
event synthesizers (depositV3, fillV3Relay, executeV3SlowRelayLeaf), the
deposit-id override table (setDepositIds) and the update engine (_update),
together with the Event Store they talk to.
-/

/-- Modelled from the spec: the zero address constant (repository constants
module, outside src). -/
def ZERO_ADDRESS : String := "0x0000000000000000000000000000000000000000"

/-- Modelled from the spec: the fill-type tag is a closed variant
(FastFill or SlowFill); the enum lives in the repository interfaces module,
outside src. -/
inductive FillType where
  | FastFill
  | SlowFill
  deriving DecidableEq, Repr

/-- Block metadata resolved for a stored event (ethers `providers.Block`,
reduced to the fields the mock ever touches). -/
structure Block where
  number : Nat
  timestamp : Nat
  deriving DecidableEq, Repr

/-- Nested relay-execution info carried by a synthesized fill event. -/
structure RelayExecutionInfo where
  updatedRecipient : String
  updatedMessage : String
  updatedOutputAmount : Int
  fillType : FillType
  deriving DecidableEq, Repr

/-- Argument payload of a synthesized event: a JS object with
possibly-absent keys, so every field is an Option defaulting to none.
Amounts are ethers BigNumbers, i.e. arbitrary-precision integers. -/
structure EventArgs where
  depositId : Option Nat := none
  originChainId : Option Nat := none
  destinationChainId : Option Nat := none
  depositor : Option String := none
  recipient : Option String := none
  inputToken : Option String := none
  inputAmount : Option Int := none
  outputToken : Option String := none
  outputAmount : Option Int := none
  quoteTimestamp : Option Nat := none
  fillDeadline : Option Nat := none
  exclusiveRelayer : Option String := none
  exclusivityDeadline : Option Nat := none
  message : Option String := none
  repaymentChainId : Option Nat := none
  relayer : Option String := none
  relayExecutionInfo : Option RelayExecutionInfo := none
  deriving DecidableEq, Repr

/-- A stored synthetic event: type tag, emitting address, topics, argument
payload, block position and the owning block's metadata (`getBlock`). -/
structure MockEvent where
  event : String
  address : String
  topics : List String
  args : EventArgs
  blockNumber : Nat
  transactionIndex : Nat
  block : Block
  deriving DecidableEq, Repr

/-- Modelled from the spec: the Event Store (EventManager, outside src) holds
the ordered sequence of stored events and a monotonically increasing block
counter; src consumes its flattened event list and its block counter. -/
structure EventManager where
  events : List MockEvent
  blockNumber : Nat
  deriving DecidableEq, Repr

/-- Input of `EventManager.generateEvent`: block number and transaction index
may be left unset, in which case the store assigns a position. -/
structure GenerateEventInput where
  event : String
  address : String
  topics : List String
  args : EventArgs
  blockNumber : Option Nat := none
  transactionIndex : Option Nat := none

/-- Modelled from the spec: the Event Store appends one event per call,
auto-assigning block and transaction position when unspecified, advancing its
monotone block counter, and returning the stored event. -/
def EventManager.generateEvent (m : EventManager) (g : GenerateEventInput) :
    EventManager × MockEvent :=
  let bn := g.blockNumber.getD (m.blockNumber + 1)
  let e : MockEvent :=
    { event := g.event, address := g.address, topics := g.topics, args := g.args,
      blockNumber := bn, transactionIndex := g.transactionIndex.getD 0,
      block := { number := bn, timestamp := 0 } }
  ({ events := m.events ++ [e], blockNumber := max m.blockNumber bn }, e)

/-- Randomness and clock oracle: one value per non-deterministic draw a
synthesis call makes (lodash `random`, `randomAddress`, `getCurrentTime`).
Passing it explicitly keeps the embedding deterministic, as the spec's design
notes direct; no claim constrains these values. -/
structure Draws where
  destinationChainId : Nat
  originChainId : Nat
  depositId : Nat
  depositor : String
  token : String
  relayer : String
  recipient : String
  fillDepositor : String
  amountWei : Int
  currentTime : Nat

/-- Mutable state of a MockSpokePoolClient instance. -/
structure ClientState where
  chainId : Nat
  spokePoolAddress : String
  eventManager : EventManager
  realizedLpFeePct : Int
  realizedLpFeePctOverride : Bool
  destinationTokenForChainOverride : Nat → Option String
  depositIdAtBlock : List Nat
  numberOfDeposits : Nat
  blocks : Nat → Option Block
  latestDepositIdQueried : Nat
  latestBlockSearched : Nat
  eventSearchConfigToBlock : Option Nat

/-- Partially specified deposit record handed to `depositV3`; unset fields
are `none` (TS `undefined`). -/
structure DepositInput where
  blockNumber : Option Nat := none
  transactionIndex : Option Nat := none
  depositId : Option Nat := none
  depositor : Option String := none
  destinationChainId : Option Nat := none
  inputToken : Option String := none
  inputAmount : Option Int := none
  outputToken : Option String := none
  outputAmount : Option Int := none
  originChainId : Option Nat := none
  recipient : Option String := none
  message : Option String := none
  quoteTimestamp : Option Nat := none
  fillDeadline : Option Nat := none
  exclusiveRelayer : Option String := none
  exclusivityDeadline : Option Nat := none
  deriving DecidableEq, Repr

/-- Partially specified relay-execution info handed to `fillV3Relay`. -/
structure RelayExecutionInfoInput where
  updatedRecipient : Option String := none
  updatedMessage : Option String := none
  updatedOutputAmount : Option Int := none
  fillType : Option FillType := none
  deriving DecidableEq, Repr

/-- Partially specified fill record handed to `fillV3Relay`. -/
structure FillInput where
  blockNumber : Option Nat := none
  transactionIndex : Option Nat := none
  originChainId : Option Nat := none
  destinationChainId : Option Nat := none
  depositId : Option Nat := none
  inputToken : Option String := none
  inputAmount : Option Int := none
  outputToken : Option String := none
  outputAmount : Option Int := none
  fillDeadline : Option Nat := none
  relayer : Option String := none
  recipient : Option String := none
  message : Option String := none
  repaymentChainId : Option Nat := none
  exclusivityDeadline : Option Nat := none
  exclusiveRelayer : Option String := none
  depositor : Option String := none
  relayExecutionInfo : Option RelayExecutionInfoInput := none
  deriving DecidableEq, Repr

/-- Fully specified V3 relay data of a slow-fill leaf (repository interfaces
module; every field is required there). -/
structure RelayData where
  depositor : String
  recipient : String
  exclusiveRelayer : String
  inputToken : String
  outputToken : String
  inputAmount : Int
  outputAmount : Int
  originChainId : Nat
  depositId : Nat
  fillDeadline : Nat
  exclusivityDeadline : Nat
  message : String
  deriving DecidableEq, Repr

/-- Slow-fill leaf handed to `executeV3SlowRelayLeaf` (root-bundle id and
proof are discarded by the source and therefore not modelled). -/
structure SlowFillLeaf where
  relayData : RelayData
  chainId : Nat
  updatedOutputAmount : Int
  deriving DecidableEq, Repr

/-- The snapshot returned by `_update` (SpokePoolUpdate). -/
structure SpokePoolUpdate where
  success : Bool
  firstDepositId : Nat
  latestDepositId : Nat
  currentTime : Nat
  oldestTime : Nat
  events : List (List MockEvent)
  searchEndBlock : Nat
  hasCCTPBridgingEnabled : Bool
  deriving DecidableEq, Repr

/-- `setDepositIds` loop body: walk the supplied ids carrying the previous id
(`last`) and the table written so far; throw as soon as an id decreases,
leaving the entries already written in place. -/
def setDepositIdsLoop (last : Nat) (acc : List Nat) : List Nat → List Nat × Option String
  | [] => (acc, none)
  | x :: xs =>
    if x < last then (acc, some ("deposit ID must be equal to or greater than previous"))
    else setDepositIdsLoop x (acc ++ [x]) xs

/-- `MockSpokePoolClient.setDepositIds`: clears the deposit-id-at-block table,
then copies the supplied ids one by one, validating that each id is greater
than or equal to its predecessor; a violation throws mid-loop, and already
copied entries stay in the table. The `Option String` is the thrown error. -/
def setDepositIds (st : ClientState) (ids : List Nat) : ClientState × Option String :=
  match ids with
  | [] => ({ st with depositIdAtBlock := [] }, none)
  | x :: _ =>
    let r := setDepositIdsLoop x [] ids
    ({ st with depositIdAtBlock := r.1 }, r.2)

/-- `MockSpokePoolClient.depositV3` (`toBN095` stands for the repository
utility value `toBN("0.95")`, defined outside src; ethers BigNumbers are
integers, so it is some integer and the theorems below quantify over it).
The deposit id defaults to the running counter, an explicitly supplied id
below the counter throws (node assert), the counter advances to id + 1, the
remaining fields are defaulted, and the finished event is handed to the
Event Store. The `Except` result is the stored event or the thrown error. -/
def depositV3 (toBN095 : Int) (r : Draws) (st : ClientState) (d : DepositInput) :
    ClientState × Except String MockEvent :=
  let depositId := d.depositId.getD st.numberOfDeposits
  if depositId < st.numberOfDeposits then
    (st, Except.error (toString depositId ++ " < " ++ toString st.numberOfDeposits))
  else
    let st := { st with numberOfDeposits := depositId + 1 }
    let destinationChainId := d.destinationChainId.getD r.destinationChainId
    let depositor := d.depositor.getD r.depositor
    let inputToken := d.inputToken.getD r.token
    let outputToken := d.outputToken.getD inputToken
    let inputAmount := d.inputAmount.getD r.amountWei
    let outputAmount := d.outputAmount.getD (inputAmount * toBN095)
    let message := d.message.getD
      ("V3FundsDeposited event at block " ++ toString d.blockNumber ++ ", index "
        ++ toString d.transactionIndex ++ ".")
    let quoteTimestamp := d.quoteTimestamp.getD r.currentTime
    let args : EventArgs :=
      { depositId := some depositId,
        originChainId := some (d.originChainId.getD st.chainId),
        destinationChainId := some destinationChainId,
        depositor := some depositor,
        recipient := some (d.recipient.getD depositor),
        inputToken := some inputToken,
        inputAmount := some inputAmount,
        outputToken := some outputToken,
        outputAmount := some outputAmount,
        quoteTimestamp := some quoteTimestamp,
        fillDeadline := some (d.fillDeadline.getD (quoteTimestamp + 3600)),
        exclusiveRelayer := some (d.exclusiveRelayer.getD ZERO_ADDRESS),
        exclusivityDeadline := some (d.exclusivityDeadline.getD (quoteTimestamp + 600)),
        message := some message }
    let p := st.eventManager.generateEvent
      { event := "V3FundsDeposited", address := st.spokePoolAddress,
        topics := [toString destinationChainId, toString depositId, depositor],
        args := args, blockNumber := d.blockNumber,
        transactionIndex := d.transactionIndex }
    ({ st with eventManager := p.1 }, Except.ok p.2)

/-- `MockSpokePoolClient.fillV3Relay`: defaults the destructured locals, but
stores `fill.inputAmount` and `fill.outputAmount` (the raw caller fields) in
the argument payload; the defaulted locals feed only the relay-execution-info
defaults and the deadline derivation, exactly as the source does. -/
def fillV3Relay (r : Draws) (st : ClientState) (f : FillInput) :
    ClientState × MockEvent :=
  let originChainId := f.originChainId.getD r.originChainId
  let depositId := f.depositId.getD r.depositId
  let inputToken := f.inputToken.getD r.token
  let inputAmount := f.inputAmount.getD r.amountWei
  let outputAmount := f.outputAmount.getD inputAmount
  let fillDeadline := f.fillDeadline.getD (r.currentTime + 60)
  let relayer := f.relayer.getD r.relayer
  let recipient := f.recipient.getD r.recipient
  let message := f.message.getD
    ("FilledV3Relay event at block " ++ toString f.blockNumber ++ ", index "
      ++ toString f.transactionIndex ++ ".")
  let args : EventArgs :=
    { inputToken := some inputToken,
      outputToken := some (f.outputToken.getD ZERO_ADDRESS),
      inputAmount := f.inputAmount,
      outputAmount := f.outputAmount,
      repaymentChainId := some (f.repaymentChainId.getD st.chainId),
      originChainId := some originChainId,
      depositId := some depositId,
      fillDeadline := some fillDeadline,
      exclusivityDeadline := some (f.exclusivityDeadline.getD fillDeadline),
      exclusiveRelayer := some (f.exclusiveRelayer.getD ZERO_ADDRESS),
      relayer := some relayer,
      depositor := some (f.depositor.getD r.fillDepositor),
      recipient := some recipient,
      message := some message,
      relayExecutionInfo := some
        { updatedRecipient := ((f.relayExecutionInfo.bind (fun x => x.updatedRecipient)).getD recipient),
          updatedMessage := ((f.relayExecutionInfo.bind (fun x => x.updatedMessage)).getD message),
          updatedOutputAmount := ((f.relayExecutionInfo.bind (fun x => x.updatedOutputAmount)).getD outputAmount),
          fillType := ((f.relayExecutionInfo.bind (fun x => x.fillType)).getD FillType.FastFill) } }
  let p := st.eventManager.generateEvent
    { event := "FilledV3Relay", address := st.spokePoolAddress,
      topics := [toString originChainId, toString depositId, relayer],
      args := args, blockNumber := f.blockNumber,
      transactionIndex := f.transactionIndex }
  ({ st with eventManager := p.1 }, p.2)

/-- `MockSpokePoolClient.executeV3SlowRelayLeaf`: builds a fill from the
leaf's relay data with the zero address as relayer, repayment chain 0 and a
SlowFill relay-execution info, then delegates to `fillV3Relay`. -/
def executeV3SlowRelayLeaf (r : Draws) (st : ClientState) (leaf : SlowFillLeaf) :
    ClientState × MockEvent :=
  let fill : FillInput :=
    { depositor := some leaf.relayData.depositor,
      recipient := some leaf.relayData.recipient,
      exclusiveRelayer := some leaf.relayData.exclusiveRelayer,
      inputToken := some leaf.relayData.inputToken,
      outputToken := some leaf.relayData.outputToken,
      inputAmount := some leaf.relayData.inputAmount,
      outputAmount := some leaf.relayData.outputAmount,
      originChainId := some leaf.relayData.originChainId,
      depositId := some leaf.relayData.depositId,
      fillDeadline := some leaf.relayData.fillDeadline,
      exclusivityDeadline := some leaf.relayData.exclusivityDeadline,
      message := some leaf.relayData.message,
      destinationChainId := some st.chainId,
      relayer := some ZERO_ADDRESS,
      repaymentChainId := some 0,
      relayExecutionInfo := some
        { updatedRecipient := some leaf.relayData.recipient,
          updatedOutputAmount := some leaf.updatedOutputAmount,
          updatedMessage := some leaf.relayData.message,
          fillType := some FillType.SlowFill } }
  fillV3Relay r st fill

/-- JS `Array.prototype.indexOf` on a string list (first occurrence, `none`
for -1), as `_update` uses it on the requested event-type list. -/
def jsIndexOf? : List String → String → Option Nat
  | [], _ => none
  | x :: xs, s => if x == s then some 0 else (jsIndexOf? xs s).map (fun i => i + 1)

/-- Accumulator of `_update`'s single linear pass over the stored events:
the per-type buckets and the per-block metadata map built so far. -/
structure ScanState where
  events : List (List MockEvent)
  blocks : Nat → Option Block

/-- One step of `_update`'s pass: if the event's type tag occurs in the
requested list, push the event into the bucket at the type's first index and
record its block metadata; otherwise skip it. -/
def updateScanStep (q : List String) (s : ScanState) (e : MockEvent) : ScanState :=
  match jsIndexOf? q e.event with
  | some i =>
    { events := s.events.set i (s.events.getD i [] ++ [e]),
      blocks := fun b => if b = e.blockNumber then some e.block else s.blocks b }
  | none => s

/-- `_update`'s full pass: one bucket per requested type (even if empty), in
requested order, filled by a single left fold over the stored events. -/
def updateScan (q : List String) (evs : List MockEvent) : ScanState :=
  evs.foldl (updateScanStep q) { events := q.map (fun _ => []), blocks := fun _ => none }

/-- `MockSpokePoolClient._update`: reads the flattened Event-Store list once,
buckets events by requested type, replaces the client's block-metadata map,
folds the running deposit-id maximum from the previously recorded high-water
mark, and returns the snapshot. `tNow` is `getCurrentTime()`. -/
def _update (st : ClientState) (tNow : Nat) (eventsToQuery : List String) :
    ClientState × SpokePoolUpdate :=
  let latestBlockSearched := st.eventManager.blockNumber
  let scan := updateScan eventsToQuery st.eventManager.events
  let depositEvents :=
    match jsIndexOf? eventsToQuery ("V3FundsDeposited") with
    | some i => scan.events.getD i []
    | none => []
  let latestDepositId :=
    depositEvents.foldl (fun a e => max a (e.args.depositId.getD 0)) st.latestDepositIdQueried
  ({ st with blocks := scan.blocks },
   { success := true,
     firstDepositId := 0,
     latestDepositId := latestDepositId,
     currentTime := tNow,
     oldestTime := 0,
     events := scan.events,
     searchEndBlock :=
       match st.eventSearchConfigToBlock with
       | some t => if t = 0 then latestBlockSearched else t
       | none => latestBlockSearched,
     hasCCTPBridgingEnabled := false })

/-- Modelled from the spec: the surrounding production client (SpokePoolClient
`update`, outside src) records each snapshot's `latestDepositId` as the
high-water mark `latestDepositIdQueried` before the next poll. -/
def recordSnapshot (st : ClientState) (u : SpokePoolUpdate) : ClientState :=
  { st with latestDepositIdQueried := u.latestDepositId }

/-- Effect on the client of any later synthesis calls, as far as `_update` is
concerned: they append events to the Event Store. -/
def appendEvents (st : ClientState) (extra : List MockEvent) : ClientState :=
  { st with eventManager :=
      { st.eventManager with events := st.eventManager.events ++ extra } }

/-- Run a sequence of `depositV3` calls, threading the client state and
collecting each call's result in order. -/
def runDeposits (k : Int) (st : ClientState) :
    List (Draws × DepositInput) → ClientState × List (Except String MockEvent)
  | [] => (st, [])
  | c :: cs =>
    let p := depositV3 k c.1 st c.2
    let rest := runDeposits k p.1 cs
    (rest.1, p.2 :: rest.2)

/-- The deposit id assigned by each call of a `depositV3` sequence (the id
recorded in the stored event; `none` for a failed call). -/
def assignedIds (l : List (Except String MockEvent)) : List (Option Nat) :=
  l.map (fun r => match r with | Except.ok e => e.args.depositId | Except.error _ => none)

/-- Fresh client fixture used by the concrete witnesses. -/
def freshClient : ClientState :=
  { chainId := 999,
    spokePoolAddress := "0xPool",
    eventManager := { events := [], blockNumber := 0 },
    realizedLpFeePct := 0,
    realizedLpFeePctOverride := false,
    destinationTokenForChainOverride := fun _ => none,
    depositIdAtBlock := [],
    numberOfDeposits := 0,
    blocks := fun _ => none,
    latestDepositIdQueried := 0,
    latestBlockSearched := 0,
    eventSearchConfigToBlock := none }

/-- Oracle fixture used by the concrete witnesses. -/
def testDraws : Draws :=
  { destinationChainId := 10,
    originChainId := 5,
    depositId := 77,
    depositor := "0xDepositor",
    token := "0xToken",
    relayer := "0xRelayer",
    recipient := "0xRecipient",
    fillDepositor := "0xFillDepositor",
    amountWei := 123,
    currentTime := 1000 }

/-- A stored event of type tag `t` at block `b`, used by the fixtures. -/
def mkStoredEvent (t : String) (b : Nat) (id : Option Nat) : MockEvent :=
  { event := t, address := "0xPool", topics := [],
    args := { depositId := id }, blockNumber := b, transactionIndex := 0,
    block := { number := b, timestamp := 0 } }

/-- Client fixture whose Event Store holds an A event, a B event and a second
A event, in that insertion order. -/
def clientAB : ClientState :=
  { freshClient with eventManager :=
      { events := [mkStoredEvent ("A") 1 none, mkStoredEvent ("B") 2 none, mkStoredEvent ("A") 3 none],
        blockNumber := 3 } }

/-- Client fixture with one stored deposit event carrying id 3 and a recorded
high-water mark of 5. -/
def clientDep : ClientState :=
  { freshClient with
      eventManager := { events := [mkStoredEvent ("V3FundsDeposited") 1 (some 3)], blockNumber := 1 },
      latestDepositIdQueried := 5 }

/-! Helper lemmas about list indexing. -/

lemma getD_set_self {α : Type} (l : List α) (i : Nat) (a d : α) (h : i < l.length) :
    (l.set i a).getD i d = a := by
  simp [List.getD, List.getElem?_set_eq_of_lt a h]

lemma getD_set_ne {α : Type} (l : List α) (i j : Nat) (a d : α) (h : j ≠ i) :
    (l.set j a).getD i d = l.getD i d := by
  simp [List.getD, List.getElem?_set_ne h]

lemma getD_map_nil {α β : Type} (q : List β) (i : Nat) (d : List α) (h : i < q.length) :
    ((q.map (fun _ => ([] : List α))).getD i d) = [] := by
  simp [List.getD, List.getElem?_replicate, h]

lemma jsIndexOf_lt_length : ∀ (q : List String) (s : String) (i : Nat),
    jsIndexOf? q s = some i → i < q.length
  | [], _, _, h => by simp [jsIndexOf?] at h
  | x :: xs, s, i, h => by
    by_cases hx : x == s
    · simp [jsIndexOf?, hx] at h
      simp [← h]
    · simp [jsIndexOf?, hx] at h
      obtain ⟨j, hj, rfl⟩ := h
      simpa using Nat.succ_lt_succ (jsIndexOf_lt_length xs s j hj)

lemma jsIndexOf_get : ∀ (q : List String) (s : String) (i : Nat) (h : i < q.length),
    jsIndexOf? q s = some i → q.get ⟨i, h⟩ = s
  | [], _, _, h, _ => absurd h (by simp)
  | x :: xs, s, i, h, hfind => by
    by_cases hx : x == s
    · simp [jsIndexOf?, hx] at hfind
      subst hfind
      simpa using eq_of_beq hx
    · simp [jsIndexOf?, hx] at hfind
      obtain ⟨j, hj, rfl⟩ := hfind
      exact jsIndexOf_get xs s j (Nat.lt_of_succ_lt_succ h) hj

lemma jsIndexOf_of_get : ∀ (q : List String) (s : String) (i : Nat) (h : i < q.length),
    q.Nodup → q.get ⟨i, h⟩ = s → jsIndexOf? q s = some i
  | [], _, _, h, _, _ => absurd h (by simp)
  | x :: xs, s, i, h, hnd, hget => by
    match i with
    | 0 =>
      have hx : x = s := hget
      simp [jsIndexOf?, hx]
    | i + 1 =>
      have hmem : s ∈ xs := by
        have hg : xs.get ⟨i, Nat.lt_of_succ_lt_succ h⟩ = s := hget
        exact hg ▸ xs.get_mem i (Nat.lt_of_succ_lt_succ h)
      have hx : ¬ (x == s) := by
        intro hb
        have hxs : x = s := eq_of_beq hb
        subst hxs
        exact (List.nodup_cons.mp hnd).1 hmem
      have hrec := jsIndexOf_of_get xs s i (Nat.lt_of_succ_lt_succ h)
        (List.nodup_cons.mp hnd).2 hget
      simp [jsIndexOf?, hx, hrec]

/-! Helper lemmas about the update pass. -/

lemma scanStep_events_length (q : List String) (s : ScanState) (e : MockEvent) :
    (updateScanStep q s e).events.length = s.events.length := by
  unfold updateScanStep
  cases h : jsIndexOf? q e.event <;> simp

lemma scan_foldl_length (q : List String) :
    ∀ (evs : List MockEvent) (acc : ScanState),
      (evs.foldl (updateScanStep q) acc).events.length = acc.events.length
  | [], _ => rfl
  | e :: evs, acc => by
    rw [List.foldl_cons, scan_foldl_length q evs]
    exact scanStep_events_length q acc e

lemma scan_foldl_getD (q : List String) :
    ∀ (evs : List MockEvent) (acc : ScanState), acc.events.length = q.length →
      ∀ i, i < q.length →
      ((evs.foldl (updateScanStep q) acc).events.getD i []) =
        acc.events.getD i [] ++ evs.filter (fun e => jsIndexOf? q e.event == some i)
  | [], _, _, i, _ => by simp
  | e :: evs, acc, hlen, i, hi => by
    rw [List.foldl_cons]
    cases hfind : jsIndexOf? q e.event with
    | none =>
      have hstep : updateScanStep q acc e = acc := by simp [updateScanStep, hfind]
      rw [hstep, scan_foldl_getD q evs acc hlen i hi]
      have hne : (jsIndexOf? q e.event == some i) = false := by simp [hfind]
      simp [List.filter_cons, hne]
    | some j =>
      have hstep : updateScanStep q acc e =
          { events := acc.events.set j (acc.events.getD j [] ++ [e]),
            blocks := fun b => if b = e.blockNumber then some e.block else acc.blocks b } := by
        simp [updateScanStep, hfind]
      have hlen2 : (acc.events.set j (acc.events.getD j [] ++ [e])).length = q.length := by
        simp [hlen]
      rw [hstep]
      rw [scan_foldl_getD q evs _ hlen2 i hi]
      by_cases hij : j = i
      · subst hij
        rw [getD_set_self _ _ _ _ (by rw [hlen]; exact jsIndexOf_lt_length q e.event j hfind)]
        have heq : (jsIndexOf? q e.event == some j) = true := by simp [hfind]
        simp [List.filter_cons, heq]
      · rw [getD_set_ne _ _ _ _ _ hij]
        have hne : (jsIndexOf? q e.event == some i) = false := by
          rw [hfind]
          simpa using hij
        simp [List.filter_cons, hne]

lemma scan_foldl_blocks (q : List String) :
    ∀ (evs : List MockEvent) (acc : ScanState) (b : Nat),
      ((evs.foldl (updateScanStep q) acc).blocks b).isSome = true ↔
        (∃ e ∈ evs, (jsIndexOf? q e.event).isSome = true ∧ e.blockNumber = b) ∨
          (acc.blocks b).isSome = true
  | [], _, _ => by simp
  | e :: evs, acc, b => by
    rw [List.foldl_cons, scan_foldl_blocks q evs (updateScanStep q acc e) b]
    cases hfind : jsIndexOf? q e.event with
    | none =>
      have hstep : updateScanStep q acc e = acc := by simp [updateScanStep, hfind]
      rw [hstep]
      simp [hfind]
    | some j =>
      have hstep : updateScanStep q acc e =
          { events := acc.events.set j (acc.events.getD j [] ++ [e]),
            blocks := fun b => if b = e.blockNumber then some e.block else acc.blocks b } := by
        simp [updateScanStep, hfind]
      rw [hstep]
      by_cases hb : b = e.blockNumber
      · subst hb
        simp [hfind]
      · have hb' : ¬ (e.blockNumber = b) := fun h => hb h.symm
        simp [hfind, hb, hb']

/-! Helper lemmas about the running maximum. -/

lemma foldl_max_le_init {α : Type} (g : α → Nat) :
    ∀ (l : List α) (a : Nat), a ≤ l.foldl (fun x e => max x (g e)) a
  | [], a => le_refl a
  | e :: l, a => le_trans (Nat.le_max_left a (g e)) (foldl_max_le_init g l _)

lemma foldl_max_le_mem {α : Type} (g : α → Nat) :
    ∀ (l : List α) (a : Nat) (e : α), e ∈ l → g e ≤ l.foldl (fun x e => max x (g e)) a
  | [], _, _, h => absurd h (by simp)
  | x :: l, a, e, h => by
    rcases List.mem_cons.mp h with rfl | h'
    · exact le_trans (Nat.le_max_right a (g e)) (foldl_max_le_init g l _)
    · exact foldl_max_le_mem g l _ e h'

lemma foldl_max_attained {α : Type} (g : α → Nat) :
    ∀ (l : List α) (a : Nat),
      l.foldl (fun x e => max x (g e)) a = a ∨
        ∃ e ∈ l, l.foldl (fun x e => max x (g e)) a = g e
  | [], _ => Or.inl rfl
  | x :: l, a => by
    rw [List.foldl_cons]
    rcases foldl_max_attained g l (max a (g x)) with h | ⟨e, he, hh⟩
    · rcases max_choice a (g x) with hm | hm
      · exact Or.inl (by rw [h, hm])
      · exact Or.inr ⟨x, List.mem_cons_self x l, by rw [h, hm]⟩
    · exact Or.inr ⟨e, List.mem_cons_of_mem x he, hh⟩

/-! Helper lemmas about depositV3. -/

lemma depositV3_none_counter (k : Int) (r : Draws) (st : ClientState) (d : DepositInput)
    (hd : d.depositId = none) :
    (depositV3 k r st d).1.numberOfDeposits = st.numberOfDeposits + 1 := by
  simp [depositV3, hd, EventManager.generateEvent]

lemma depositV3_none_ok (k : Int) (r : Draws) (st : ClientState) (d : DepositInput)
    (hd : d.depositId = none) :
    ∃ e, (depositV3 k r st d).2 = Except.ok e ∧ e.args.depositId = some st.numberOfDeposits := by
  simp [depositV3, hd, EventManager.generateEvent]

lemma range_map_some_shift (n len : Nat) :
    (List.range (len + 1)).map (fun i => some (n + i)) =
      some n :: (List.range len).map (fun i => some (n + 1 + i)) := by
  rw [List.range_succ_eq_map]
  simp only [List.map_cons, List.map_map, Nat.add_zero]
  have hfun : ((fun i => some (n + i)) ∘ Nat.succ) = (fun i => some (n + 1 + i)) := by
    funext i
    simp only [Function.comp_apply]
    congr 1
    omega
  rw [hfun]

lemma runDeposits_ids (k : Int) :
    ∀ (calls : List (Draws × DepositInput)) (st : ClientState),
      (∀ c ∈ calls, c.2.depositId = none) →
      assignedIds (runDeposits k st calls).2 =
          (List.range calls.length).map (fun i => some (st.numberOfDeposits + i)) ∧
        (runDeposits k st calls).1.numberOfDeposits = st.numberOfDeposits + calls.length
  | [], st, _ => by simp [runDeposits, assignedIds]
  | c :: cs, st, hall => by
    have hd : c.2.depositId = none := hall c (List.mem_cons_self c cs)
    obtain ⟨e, he, hid⟩ := depositV3_none_ok k c.1 st c.2 hd
    have hcnt := depositV3_none_counter k c.1 st c.2 hd
    obtain ⟨ih1, ih2⟩ := runDeposits_ids k cs (depositV3 k c.1 st c.2).1
      (fun c' hc' => hall c' (List.mem_cons_of_mem c hc'))
    constructor
    · show assignedIds ((depositV3 k c.1 st c.2).2 ::
        (runDeposits k (depositV3 k c.1 st c.2).1 cs).2) = _
      rw [assignedIds, List.map_cons, he]
      show e.args.depositId :: assignedIds (runDeposits k (depositV3 k c.1 st c.2).1 cs).2 = _
      rw [hid, ih1, hcnt, List.length_cons, range_map_some_shift]
    · show (runDeposits k (depositV3 k c.1 st c.2).1 cs).1.numberOfDeposits = _
      rw [ih2, hcnt, List.length_cons]
      omega

/-- Claim C1: starting from a fresh client, every sequence of N depositV3
calls that leave the deposit id unset is assigned the ids 0, 1, ..., N-1 in
call order, and after the N-th call the number-of-deposits counter equals N. -/
theorem depositV3_sequential_ids (k : Int) (calls : List (Draws × DepositInput))
    (st : ClientState) (h0 : st.numberOfDeposits = 0)
    (hall : ∀ c ∈ calls, c.2.depositId = none) :
    assignedIds (runDeposits k st calls).2 = (List.range calls.length).map some ∧
      (runDeposits k st calls).1.numberOfDeposits = calls.length := by
  obtain ⟨h1, h2⟩ := runDeposits_ids k calls st hall
  rw [h0] at h1 h2
  constructor
  · rw [h1]
    simp
  · rw [h2]
    omega

/-- Witness for C1: two concrete calls with unset ids are assigned 0 and 1 and
leave the counter at 2. -/
theorem depositV3_sequential_ids_witness :
    freshClient.numberOfDeposits = 0 ∧
      assignedIds (runDeposits 0 freshClient [(testDraws, {}), (testDraws, {})]).2 =
          (List.range 2).map some ∧
        (runDeposits 0 freshClient [(testDraws, {}), (testDraws, {})]).1.numberOfDeposits = 2 :=
  ⟨rfl, depositV3_sequential_ids 0 [(testDraws, {}), (testDraws, {})] freshClient rfl (by decide)⟩

/-- Claim C4: a depositV3 call whose explicitly supplied deposit id is below
the running counter fails synchronously with a descriptive error naming both
values, appends no event to the Event Store, and leaves the client (in
particular the counter) unchanged. -/
theorem depositV3_rejects_low_explicit_id (k : Int) (r : Draws) (st : ClientState)
    (d : DepositInput) (i : Nat) (hd : d.depositId = some i)
    (hi : i < st.numberOfDeposits) :
    (depositV3 k r st d).1 = st ∧
      (depositV3 k r st d).2 =
        Except.error (toString i ++ " < " ++ toString st.numberOfDeposits) := by
  simp [depositV3, hd, hi]

/-- Witness for C4: explicit id 1 against a counter of 2 is rejected and the
state is untouched. -/
theorem depositV3_rejects_low_explicit_id_witness :
    (1 : Nat) < 2 ∧
      (depositV3 0 testDraws { freshClient with numberOfDeposits := 2 }
          { depositId := some 1 }).1 = { freshClient with numberOfDeposits := 2 } ∧
        (depositV3 0 testDraws { freshClient with numberOfDeposits := 2 }
          { depositId := some 1 }).2 = Except.error (toString 1 ++ " < " ++ toString 2) :=
  ⟨by decide,
   depositV3_rejects_low_explicit_id 0 testDraws { freshClient with numberOfDeposits := 2 }
     { depositId := some 1 } 1 rfl (by decide)⟩

/-- Claim C5 refuted (code bug): a deposit synthesized with input amount 1000
and the output amount unset stores output amount 1000 * toBN("0.95"), and no
integer value of the ethers BigNumber toBN("0.95") can make that 950, the
value the claim requires; with across's toBN truncation the multiplier is 0. -/
theorem depositV3_outputAmount_default_bug (toBN095 : Int) :
    ((depositV3 toBN095 testDraws freshClient { inputAmount := some 1000 }).2.map
        (fun e => e.args.outputAmount)) = Except.ok (some (1000 * toBN095)) ∧
      ∀ z : Int, 1000 * z ≠ 950 := by
  constructor
  · rfl
  · intro z
    omega

/-- Claim C7 refuted (code bug): a fill synthesized with input amount 7 and
output amount unset stores no output amount at all (the source stores the raw
caller field, not the defaulted local, which only reaches
relayExecutionInfo.updatedOutputAmount). -/
theorem fillV3Relay_outputAmount_dropped_bug :
    (fillV3Relay testDraws freshClient { inputAmount := some 7 }).2.args.outputAmount = none ∧
      (fillV3Relay testDraws freshClient { inputAmount := some 7 }).2.args.outputAmount ≠
        some 7 ∧
      ((fillV3Relay testDraws freshClient
          { inputAmount := some 7 }).2.args.relayExecutionInfo.map
        (fun x => x.updatedOutputAmount)) = some 7 :=
  ⟨rfl, by decide, rfl⟩

/-- Claim C8: every slow-fill-leaf execution produces a fill event whose
relay-execution-info fill type is SlowFill and whose relayer is the zero
address, whatever the leaf contents, client state and oracle values. -/
theorem executeV3SlowRelayLeaf_slowFill_zero_relayer (r : Draws) (st : ClientState)
    (leaf : SlowFillLeaf) :
    ((executeV3SlowRelayLeaf r st leaf).2.args.relayExecutionInfo.map
        (fun x => x.fillType)) = some FillType.SlowFill ∧
      (executeV3SlowRelayLeaf r st leaf).2.args.relayer = some ZERO_ADDRESS :=
  ⟨rfl, rfl⟩

/-- Claim C10: a fill synthesized with the output token unset stores the zero
address as output token, not the input token; a deposit with the output token
unset stores the input token, so the two defaulting rules differ. -/
theorem fillV3Relay_outputToken_defaults_zero (r r2 : Draws) (st st2 : ClientState)
    (f : FillInput) (d : DepositInput) (k : Int) (t : String)
    (hf : f.outputToken = none) (hd : d.outputToken = none)
    (hdi : d.inputToken = some t) (hdd : d.depositId = none) (ht : t ≠ ZERO_ADDRESS) :
    (fillV3Relay r st f).2.args.outputToken = some ZERO_ADDRESS ∧
      (fillV3Relay r st f).2.args.outputToken ≠ d.inputToken ∧
      ((depositV3 k r2 st2 d).2.map (fun e => e.args.outputToken)) = Except.ok (some t) := by
  refine ⟨?_, ?_, ?_⟩
  · simp [fillV3Relay, EventManager.generateEvent, hf]
  · simp [fillV3Relay, EventManager.generateEvent, hf, hdi]
    exact fun h => ht h.symm
  · simp [depositV3, EventManager.generateEvent, hd, hdi, hdd, Except.map]

/-- Witness for C10 at concrete inputs: output token defaults to the zero
address for a fill and to the input token for a deposit. -/
theorem fillV3Relay_outputToken_defaults_zero_witness :
    (fillV3Relay testDraws freshClient {}).2.args.outputToken = some ZERO_ADDRESS ∧
      (fillV3Relay testDraws freshClient {}).2.args.outputToken ≠
        (DepositInput.inputToken { inputToken := some ("0xTokenIn") }) ∧
      ((depositV3 0 testDraws freshClient { inputToken := some ("0xTokenIn") }).2.map
        (fun e => e.args.outputToken)) = Except.ok (some ("0xTokenIn")) :=
  fillV3Relay_outputToken_defaults_zero testDraws testDraws freshClient freshClient
    {} { inputToken := some ("0xTokenIn") } 0 ("0xTokenIn") rfl rfl rfl rfl (by decide)

/-! Shared characterization of the update buckets. -/

lemma update_bucket_filter (st : ClientState) (q : List String) (hq : q.Nodup)
    (i : Nat) (hi : i < q.length) :
    (updateScan q st.eventManager.events).events.getD i [] =
      st.eventManager.events.filter (fun e => e.event == q.get ⟨i, hi⟩) := by
  have hlen0 : (q.map (fun _ => ([] : List MockEvent))).length = q.length := by simp
  rw [updateScan, scan_foldl_getD q _ _ hlen0 i hi, getD_map_nil _ _ _ hi, List.nil_append]
  apply List.filter_congr
  intro e _
  by_cases he : e.event = q.get ⟨i, hi⟩
  · rw [jsIndexOf_of_get q e.event i hi hq he.symm]
    simp [he]
  · have h1 : jsIndexOf? q e.event ≠ some i :=
      fun hqi => he (jsIndexOf_get q e.event i hi hqi).symm
    rw [beq_eq_false_iff_ne.mpr h1, beq_eq_false_iff_ne.mpr he]

/-- Claim C2 (amended): for a duplicate-free requested type list of length k,
the snapshot's events array has length k, and bucket i holds exactly the
stored events whose type tag equals the i-th requested type, in Event-Store
insertion order; a type with no matching events yields an empty bucket, never
an absent entry. -/
theorem update_buckets_exact (st : ClientState) (tNow : Nat) (q : List String)
    (hq : q.Nodup) :
    (_update st tNow q).2.events.length = q.length ∧
      ∀ i (hi : i < q.length),
        (_update st tNow q).2.events.getD i [] =
          st.eventManager.events.filter (fun e => e.event == q.get ⟨i, hi⟩) := by
  constructor
  · show (updateScan q st.eventManager.events).events.length = q.length
    rw [updateScan, scan_foldl_length]
    simp
  · intro i hi
    show (updateScan q st.eventManager.events).events.getD i [] = _
    exact update_bucket_filter st q hq i hi

/-- Witness for C2 at the request list [A, B] against a store holding events
of types A, B, A. -/
theorem update_buckets_exact_witness :
    (["A", "B"] : List String).Nodup ∧
      (_update clientAB 0 ["A", "B"]).2.events.length = 2 ∧
      (_update clientAB 0 ["A", "B"]).2.events.getD 0 [] =
        clientAB.eventManager.events.filter (fun e => e.event == ("A" : String)) ∧
      (_update clientAB 0 ["A", "B"]).2.events.getD 1 [] =
        clientAB.eventManager.events.filter (fun e => e.event == ("B" : String)) :=
  ⟨by decide,
   (update_buckets_exact clientAB 0 ["A", "B"] (by decide)).1,
   (update_buckets_exact clientAB 0 ["A", "B"] (by decide)).2 0 (by decide),
   (update_buckets_exact clientAB 0 ["A", "B"] (by decide)).2 1 (by decide)⟩

/-- Claim C2 counterexample: with the duplicate request list [A, A], every
stored A event lands in bucket 0 (JS indexOf returns the first index), so
bucket 1 stays empty although a stored event's type equals the second
requested type; the claim as stated fails for requested lists with repeated
types. -/
theorem update_buckets_duplicate_counterexample :
    (_update clientAB 0 ["A", "A"]).2.events.getD 1 [] = [] ∧
      clientAB.eventManager.events.filter
          (fun e => e.event == (["A", "A"] : List String).get ⟨1, by decide⟩) ≠ [] ∧
      (_update clientAB 0 ["A", "A"]).2.events.getD 1 [] ≠
        clientAB.eventManager.events.filter
          (fun e => e.event == (["A", "A"] : List String).get ⟨1, by decide⟩) := by
  refine ⟨by decide, by decide, by decide⟩

/-! Helper lemmas about the running deposit-id maximum. -/

lemma update_latestDepositId_eq (st : ClientState) (tNow : Nat) (q : List String) :
    (_update st tNow q).2.latestDepositId =
      List.foldl (fun (a : Nat) (e : MockEvent) => max a (e.args.depositId.getD 0))
        st.latestDepositIdQueried
        (match jsIndexOf? q ("V3FundsDeposited") with
         | some i => (updateScan q st.eventManager.events).events.getD i []
         | none => []) := rfl

lemma update_latestDepositId_some (st : ClientState) (tNow : Nat) (q : List String)
    (i : Nat) (hfind : jsIndexOf? q ("V3FundsDeposited") = some i) :
    (_update st tNow q).2.latestDepositId =
      ((updateScan q st.eventManager.events).events.getD i []).foldl
        (fun a e => max a (e.args.depositId.getD 0)) st.latestDepositIdQueried := by
  rw [update_latestDepositId_eq, hfind]

lemma update_latest_ge_hwm (st : ClientState) (tNow : Nat) (q : List String) :
    st.latestDepositIdQueried ≤ (_update st tNow q).2.latestDepositId := by
  rw [update_latestDepositId_eq]
  cases jsIndexOf? q ("V3FundsDeposited") with
  | none => exact foldl_max_le_init _ _ _
  | some i => exact foldl_max_le_init _ _ _

lemma jsIndexOf_isSome : ∀ (q : List String) (s : String),
    (jsIndexOf? q s).isSome = true ↔ s ∈ q
  | [], s => by simp [jsIndexOf?]
  | x :: xs, s => by
    by_cases hx : x == s
    · have hxs : x = s := eq_of_beq hx
      simp [jsIndexOf?, hx, hxs]
    · have hsx : ¬ s = x := fun h => hx (by simp [h])
      simp [jsIndexOf?, hx, jsIndexOf_isSome xs s, hsx]

/-- Claim C3: the snapshot's latestDepositId equals the maximum of the
previously recorded high-water mark and the deposit ids of the stored
synthesized deposit events (it dominates both and is attained by one of
them), and once the surrounding client records it as the new high-water mark,
no later snapshot returns a smaller value, whatever events are appended to
the Event Store in between. -/
theorem update_latestDepositId_running_max (st : ClientState) (tNow : Nat)
    (q : List String) (hq : q.Nodup) (hmem : ("V3FundsDeposited" : String) ∈ q) :
    st.latestDepositIdQueried ≤ (_update st tNow q).2.latestDepositId ∧
      (∀ e ∈ st.eventManager.events, e.event = ("V3FundsDeposited" : String) →
        e.args.depositId.getD 0 ≤ (_update st tNow q).2.latestDepositId) ∧
      ((_update st tNow q).2.latestDepositId = st.latestDepositIdQueried ∨
        ∃ e ∈ st.eventManager.events, e.event = ("V3FundsDeposited" : String) ∧
          (_update st tNow q).2.latestDepositId = e.args.depositId.getD 0) ∧
      ∀ (extra : List MockEvent) (t2 : Nat) (q2 : List String),
        (_update st tNow q).2.latestDepositId ≤
          (_update (appendEvents (recordSnapshot (_update st tNow q).1
              (_update st tNow q).2) extra) t2 q2).2.latestDepositId := by
  obtain ⟨⟨i, hi⟩, hget⟩ := List.mem_iff_get.mp hmem
  have hfind : jsIndexOf? q ("V3FundsDeposited") = some i :=
    jsIndexOf_of_get q _ i hi hq hget
  have heq : (_update st tNow q).2.latestDepositId =
      (st.eventManager.events.filter
          (fun e => e.event == ("V3FundsDeposited" : String))).foldl
        (fun a e => max a (e.args.depositId.getD 0)) st.latestDepositIdQueried := by
    rw [update_latestDepositId_some st tNow q i hfind, update_bucket_filter st q hq i hi, hget]
  refine ⟨?_, ?_, ?_, ?_⟩
  · rw [heq]
    exact foldl_max_le_init _ _ _
  · intro e hmem' htype
    rw [heq]
    exact foldl_max_le_mem (fun e => e.args.depositId.getD 0)
      (st.eventManager.events.filter (fun e => e.event == ("V3FundsDeposited" : String)))
      st.latestDepositIdQueried e (List.mem_filter.mpr ⟨hmem', by simpa using htype⟩)
  · rw [heq]
    rcases foldl_max_attained (fun e => e.args.depositId.getD 0)
        (st.eventManager.events.filter (fun e => e.event == ("V3FundsDeposited" : String)))
        st.latestDepositIdQueried with h | ⟨e, he, hh⟩
    · exact Or.inl h
    · obtain ⟨hmem', htype⟩ := List.mem_filter.mp he
      exact Or.inr ⟨e, hmem', by simpa using htype, hh⟩
  · intro extra t2 q2
    have h := update_latest_ge_hwm
      (appendEvents (recordSnapshot (_update st tNow q).1 (_update st tNow q).2) extra) t2 q2
    simpa [appendEvents, recordSnapshot] using h

/-- Witness for C3: with a recorded high-water mark of 5 and a stored deposit
event with id 3, the snapshot's latestDepositId is at least the mark. -/
theorem update_latestDepositId_running_max_witness :
    (["V3FundsDeposited"] : List String).Nodup ∧
      ("V3FundsDeposited" : String) ∈ (["V3FundsDeposited"] : List String) ∧
      clientDep.latestDepositIdQueried ≤
        (_update clientDep 0 ["V3FundsDeposited"]).2.latestDepositId :=
  ⟨by decide, by decide,
   (update_latestDepositId_running_max clientDep 0 ["V3FundsDeposited"]
     (by decide) (by decide)).1⟩

/-- Claim C9: _update leaves every client field unchanged except the
per-block metadata map: the counter, the deposit-id-at-block table, the
realized-fee override state, the destination-token override map (and the
Event Store and high-water mark) keep their values; only `blocks` is
replaced, and it then holds metadata exactly for the blocks of stored events
whose type tag is one of the requested types. -/
theorem update_frame_condition (st : ClientState) (tNow : Nat) (q : List String) :
    (_update st tNow q).1.numberOfDeposits = st.numberOfDeposits ∧
      (_update st tNow q).1.depositIdAtBlock = st.depositIdAtBlock ∧
      (_update st tNow q).1.realizedLpFeePct = st.realizedLpFeePct ∧
      (_update st tNow q).1.realizedLpFeePctOverride = st.realizedLpFeePctOverride ∧
      (_update st tNow q).1.destinationTokenForChainOverride =
        st.destinationTokenForChainOverride ∧
      (_update st tNow q).1.eventManager = st.eventManager ∧
      (_update st tNow q).1.latestDepositIdQueried = st.latestDepositIdQueried ∧
      ∀ b, ((_update st tNow q).1.blocks b).isSome = true ↔
        ∃ e ∈ st.eventManager.events, e.event ∈ q ∧ e.blockNumber = b := by
  refine ⟨rfl, rfl, rfl, rfl, rfl, rfl, rfl, ?_⟩
  intro b
  show ((updateScan q st.eventManager.events).blocks b).isSome = true ↔ _
  rw [updateScan, scan_foldl_blocks]
  simp [jsIndexOf_isSome]

/-! Helper lemmas about the setDepositIds loop. -/

lemma setDepositIdsLoop_ok : ∀ (xs : List Nat) (last : Nat) (acc : List Nat),
    List.Chain (· ≤ ·) last xs → setDepositIdsLoop last acc xs = (acc ++ xs, none)
  | [], _, acc, _ => by simp [setDepositIdsLoop]
  | x :: xs, last, acc, h => by
    obtain ⟨hle, hch⟩ := List.chain_cons.mp h
    rw [setDepositIdsLoop, if_neg (Nat.not_lt.mpr hle), setDepositIdsLoop_ok xs x (acc ++ [x]) hch]
    simp

lemma setDepositIdsLoop_stop : ∀ (xs : List Nat) (last a b : Nat) (acc post : List Nat),
    List.Chain (· ≤ ·) last (xs ++ [a]) → b < a →
    setDepositIdsLoop last acc ((xs ++ [a]) ++ b :: post) =
      (acc ++ (xs ++ [a]), some ("deposit ID must be equal to or greater than previous"))
  | [], last, a, b, acc, post, h, hb => by
    have h' : List.Chain (· ≤ ·) last [a] := by simpa using h
    obtain ⟨hle, _⟩ := List.chain_cons.mp h'
    rw [List.nil_append, List.cons_append]
    simp only [setDepositIdsLoop]
    rw [if_neg (Nat.not_lt.mpr hle), if_pos hb]
  | x :: xs, last, a, b, acc, post, h, hb => by
    have h' : List.Chain (· ≤ ·) last (x :: (xs ++ [a])) := by simpa using h
    obtain ⟨hle, hch⟩ := List.chain_cons.mp h'
    rw [List.cons_append, List.cons_append]
    simp only [setDepositIdsLoop]
    rw [if_neg (Nat.not_lt.mpr hle)]
    have ih := setDepositIdsLoop_stop xs x a b (acc ++ [x]) post hch hb
    rw [ih]
    simp

/-- Claim C6 (amended): setDepositIds stores a strictly increasing sequence
unchanged and reports no error; a sequence with a decreasing adjacent pair is
rejected with a descriptive error, but because the source clears the table
and then copies ids until the first violation, the table is left holding the
prefix before the first violation (so in general neither empty nor its
previous value), not left unset. -/
theorem setDepositIds_monotonic (st : ClientState) (ids pre post : List Nat) (a b : Nat) :
    (List.Chain' (· < ·) ids →
        setDepositIds st ids = ({ st with depositIdAtBlock := ids }, none)) ∧
      (ids = pre ++ a :: b :: post → List.Chain' (· ≤ ·) (pre ++ [a]) → b < a →
        setDepositIds st ids =
          ({ st with depositIdAtBlock := pre ++ [a] },
            some ("deposit ID must be equal to or greater than previous"))) := by
  constructor
  · intro hlt
    cases ids with
    | nil => rfl
    | cons c rest =>
      have hch0 : List.Chain (· < ·) c rest := hlt
      have hch : List.Chain (· ≤ ·) c (c :: rest) :=
        List.chain_cons.mpr ⟨le_refl c, hch0.imp (fun _ _ h => le_of_lt h)⟩
      have hok := setDepositIdsLoop_ok (c :: rest) c [] hch
      simp only [List.nil_append] at hok
      simp [setDepositIds, hok]
  · intro hid hchain hba
    subst hid
    cases pre with
    | nil =>
      have hc : List.Chain (· ≤ ·) a ([] ++ [a]) := by simp [List.chain_singleton]
      have hstop := setDepositIdsLoop_stop [] a a b [] post hc hba
      simp only [List.nil_append, List.cons_append] at hstop
      simp [setDepositIds, hstop]
    | cons p pre2 =>
      have hc : List.Chain (· ≤ ·) p (pre2 ++ [a]) := by simpa using hchain
      have hfull : List.Chain (· ≤ ·) p ((p :: pre2) ++ [a]) := by
        rw [List.cons_append]
        exact List.chain_cons.mpr ⟨le_refl p, hc⟩
      have hstop := setDepositIdsLoop_stop (p :: pre2) p a b [] post hfull hba
      simp only [List.nil_append, List.cons_append, List.append_assoc] at hstop
      simp [setDepositIds, hstop]

/-- Witness for C6: [1, 2, 5] is stored unchanged; [5, 3] is rejected and
leaves the table holding [5]. -/
theorem setDepositIds_monotonic_witness :
    setDepositIds freshClient [1, 2, 5] =
        ({ freshClient with depositIdAtBlock := [1, 2, 5] }, none) ∧
      setDepositIds { freshClient with depositIdAtBlock := [7] } [5, 3] =
        ({ freshClient with depositIdAtBlock := [5] },
          some ("deposit ID must be equal to or greater than previous")) :=
  ⟨(setDepositIds_monotonic freshClient [1, 2, 5] [] [] 0 0).1
     (by simp [List.chain'_cons, List.chain'_singleton]),
   (setDepositIds_monotonic { freshClient with depositIdAtBlock := [7] } [5, 3] [] [] 5 3).2
     rfl (by simp [List.chain'_singleton]) (by decide)⟩

/-- Claim C6 counterexample: setDepositIds [5, 3] on a client whose table was
[7] throws, yet the table afterwards is [5]: not empty and not its previous
value, so the call does not leave the deposit-id-at-block table unset. -/
theorem setDepositIds_counterexample :
    (setDepositIds { freshClient with depositIdAtBlock := [7] } [5, 3]).2.isSome = true ∧
      (setDepositIds { freshClient with depositIdAtBlock := [7] } [5, 3]).1.depositIdAtBlock
          = [5] ∧
      (setDepositIds { freshClient with depositIdAtBlock := [7] } [5, 3]).1.depositIdAtBlock
          ≠ [] ∧
      (setDepositIds { freshClient with depositIdAtBlock := [7] } [5, 3]).1.depositIdAtBlock
          ≠ [7] := by
  refine ⟨rfl, rfl, by decide, by decide⟩
